import Mathlib

/-!
Shallow embedding of the power-edge reconciliation agent (Go sources under
pkg/apply, pkg/reconciler, pkg/metrics).  OS interaction is modelled by an
explicit `OSState` record threaded through every applier: the read
primitives (`sysctl -n`, `systemctl is-active` / `is-enabled`, `ufw status`,
package queries, `os.Stat`) read from it and may fail (`Option`), while the
mutating primitives (`sysctl -w`, `systemctl <verb>`, `ufw enable/disable/
allow`, package install/remove/upgrade, file write/chmod/chown) update it.
Mutating commands are modelled as succeeding, which corresponds to the
"no external interference" premise of the spec's idempotence property;
observable failures enter through the read primitives.
-/

namespace PowerEdge

/-- Desired run-state of a service (config.ServiceStateRunning / Stopped). -/
inductive ServiceState where
  | running
  | stopped
deriving DecidableEq, Repr

/-- config.ServiceConfig: name, desired run-state, desired enabled-at-boot. -/
structure ServiceConfig where
  Name : String
  State : ServiceState
  Enabled : Bool
deriving DecidableEq, Repr

/-- Desired package state (config.PackageStatePresent / Absent / Latest). -/
inductive PackageState where
  | present
  | absent
  | latest
deriving DecidableEq, Repr

/-- config.PackageConfig: name, desired state, optional version pin ("" = none). -/
structure PackageConfig where
  Name : String
  State : PackageState
  Version : String := ""
deriving DecidableEq, Repr

/-- config.FirewallConfig: enabled flag plus allowed named services. -/
structure FirewallConfig where
  Enabled : Bool
  AllowedServices : List String := []
deriving DecidableEq, Repr

/-- config.FileConfig: path, optional content / sha256 / mode / owner / group
("" marks an unspecified optional field, as the Go code tests `!= ""`). -/
structure FileConfig where
  Path : String
  Content : String := ""
  SHA256 : String := ""
  Mode : String := ""
  Owner : String := ""
  Group : String := ""
deriving DecidableEq, Repr

/-- config.State: the desired-state snapshot.  The Go `Sysctl` field is a
map; it is embedded as an association list fixing one iteration order
(the spec gives no ordering guarantee between sysctl keys). -/
structure State where
  Services : List ServiceConfig := []
  Sysctl : List (String × String) := []
  Firewall : FirewallConfig := { Enabled := false }
  Packages : List PackageConfig := []
  Files : List FileConfig := []

/-- On-disk state of one file: content, permission mode string (e.g. "0644"),
owner and group. -/
structure FileState where
  content : String
  mode : String
  owner : String
  group : String
deriving DecidableEq, Repr

/-- The observable OS state the appliers read and mutate. -/
structure OSState where
  /-- `sysctl -n key`: `none` models a failing read (unknown key). -/
  sysctl : String → Option String
  /-- `systemctl is-active`: `some true` = active (exit 0), `some false` =
  inactive (exit 3, treated as non-error by the applier), `none` = other
  failure. -/
  svcActive : String → Option Bool
  /-- `systemctl is-enabled`: `some true` = enabled, `some false` = disabled
  (exit 1, non-error), `none` = other failure. -/
  svcEnabled : String → Option Bool
  /-- whether `ufw` is on PATH. -/
  ufwInstalled : Bool
  /-- `ufw status`: `some b` = command succeeded and reports active = `b`,
  `none` = command failed. -/
  ufwEnabled : Option Bool
  /-- services currently allowed through the firewall. -/
  ufwAllowed : List String
  /-- detected package manager ("" = none of apt/dnf/yum found). -/
  pkgManager : String
  /-- installed packages: `some v` = installed at version `v`. -/
  pkgInstalled : String → Option String
  /-- version the package manager would install/upgrade to. -/
  availVersion : String → String
  /-- the filesystem: `some fs` = file exists with state `fs`. -/
  files : String → Option FileState
  /-- owner a newly created file gets (the agent process user). -/
  defaultOwner : String
  /-- group a newly created file gets. -/
  defaultGroup : String

/-- apply.ApplyResult. Errors are modelled as their message strings. -/
structure ApplyResult where
  Changed : Bool := false
  Actions : List String := []
  Error : Option String := none
deriving DecidableEq, Repr

/-! ### SysctlApplier (pkg/apply/sysctl.go) -/

/-- `sysctl -w key=value` (SysctlApplier.Set): updates the runtime value. -/
def OSState.setSysctl (st : OSState) (key value : String) : OSState :=
  { st with sysctl := fun k => if k = key then some value else st.sysctl k }

namespace SysctlApplier

/-- SysctlApplier.Get: `sysctl -n key`. -/
def Get (st : OSState) (key : String) : Option String :=
  st.sysctl key

/-- SysctlApplier.Apply: read the current value, compare with the desired
one, and (outside dry-run) set it when they differ. -/
def Apply (st : OSState) (key desiredValue : String) (dryRun : Bool) :
    OSState × ApplyResult :=
  match Get st key with
  | none => (st, { Error := some "failed to get sysctl value" })
  | some actualValue =>
    if actualValue = desiredValue then
      (st, { Changed := false })
    else
      let result : ApplyResult :=
        { Changed := true
          Actions := ["sysctl -w " ++ key ++ "=" ++ desiredValue] }
      if dryRun then (st, result)
      else (st.setSysctl key desiredValue, result)

end SysctlApplier

/-! ### ServiceApplier (pkg/apply/service.go) -/

/-- `systemctl <action> <name>` (ServiceApplier.executeSystemctl) for the
four actions the applier emits. -/
def OSState.execSystemctl (st : OSState) (action name : String) : OSState :=
  if action = "start" then
    { st with svcActive := fun n => if n = name then some true else st.svcActive n }
  else if action = "stop" then
    { st with svcActive := fun n => if n = name then some false else st.svcActive n }
  else if action = "enable" then
    { st with svcEnabled := fun n => if n = name then some true else st.svcEnabled n }
  else if action = "disable" then
    { st with svcEnabled := fun n => if n = name then some false else st.svcEnabled n }
  else st

namespace ServiceApplier

/-- The action list ServiceApplier.Apply derives from observed vs desired. -/
def requiredActions (svc : ServiceConfig) (isActive isEnabled : Bool) :
    List String :=
  (match svc.State, isActive with
   | .running, false => ["start"]
   | .stopped, true => ["stop"]
   | _, _ => []) ++
  (if svc.Enabled && !isEnabled then ["enable"]
   else if !svc.Enabled && isEnabled then ["disable"]
   else [])

/-- Execute the systemctl actions in order (the `for` loop in Apply). -/
def runActions (st : OSState) (name : String) : List String → OSState
  | [] => st
  | a :: rest => runActions (st.execSystemctl a name) name rest

/-- ServiceApplier.Apply. -/
def Apply (st : OSState) (svc : ServiceConfig) (dryRun : Bool) :
    OSState × ApplyResult :=
  match st.svcActive svc.Name with
  | none => (st, { Error := some "failed to check service status" })
  | some isActive =>
    match st.svcEnabled svc.Name with
    | none => (st, { Error := some "failed to check service enabled status" })
    | some isEnabled =>
      let actions := requiredActions svc isActive isEnabled
      if actions = [] then
        (st, { Changed := false })
      else
        let result : ApplyResult := { Changed := true, Actions := actions }
        if dryRun then (st, result)
        else (runActions st svc.Name actions, result)

/-- ServiceApplier.Check. -/
def Check (st : OSState) (name : String) : Option (Bool × Bool) :=
  match st.svcActive name, st.svcEnabled name with
  | some a, some e => some (a, e)
  | _, _ => none

end ServiceApplier

/-! ### FirewallApplier (pkg/apply/firewall.go) -/

/-- `ufw --force enable`. -/
def OSState.ufwEnable (st : OSState) : OSState :=
  { st with ufwEnabled := some true }

/-- `ufw disable`. -/
def OSState.ufwDisable (st : OSState) : OSState :=
  { st with ufwEnabled := some false }

/-- `ufw allow <service>` (idempotent at the OS level). -/
def OSState.ufwAllow (st : OSState) (service : String) : OSState :=
  { st with ufwAllowed :=
      if service ∈ st.ufwAllowed then st.ufwAllowed
      else st.ufwAllowed ++ [service] }

namespace FirewallApplier

/-- The allowed-services loop in FirewallApplier.Apply: for every desired
service it unconditionally records an action, applies it outside dry-run,
and sets Changed. -/
def allowLoop (st : OSState) (dryRun : Bool) (acc : ApplyResult) :
    List String → OSState × ApplyResult
  | [] => (st, acc)
  | service :: rest =>
    let acc := { acc with
      Actions := acc.Actions ++ ["ufw allow " ++ service]
      Changed := true }
    let st := if dryRun then st else st.ufwAllow service
    allowLoop st dryRun acc rest

/-- FirewallApplier.Apply. -/
def Apply (st : OSState) (fw : Option FirewallConfig) (dryRun : Bool) :
    OSState × ApplyResult :=
  match fw with
  | none => (st, { Changed := false })
  | some fw =>
    if !st.ufwInstalled then
      (st, { Error := some "ufw is not installed" })
    else
      match st.ufwEnabled with
      | none => (st, { Error := some "failed to check UFW status" })
      | some isEnabled =>
        let p : OSState × ApplyResult :=
          if fw.Enabled && !isEnabled then
            (if dryRun then st else st.ufwEnable,
             { Changed := true, Actions := ["ufw enable"] : ApplyResult })
          else if !fw.Enabled && isEnabled then
            (if dryRun then st else st.ufwDisable,
             { Changed := true, Actions := ["ufw disable"] : ApplyResult })
          else (st, { Changed := false })
        if fw.Enabled && !(fw.AllowedServices = []) then
          allowLoop p.1 dryRun p.2 fw.AllowedServices
        else p

/-- FirewallApplier.Check. -/
def Check (st : OSState) : Option Bool :=
  st.ufwEnabled

end FirewallApplier

/-! ### PackageApplier (pkg/apply/package.go) -/

/-- `<pm> install [-y] name[=version]` (PackageApplier.install): installs the
pinned version if given, otherwise the manager's available version. -/
def OSState.pkgInstall (st : OSState) (name version : String) : OSState :=
  { st with pkgInstalled := fun n =>
      if n = name then
        some (if version = "" then st.availVersion name else version)
      else st.pkgInstalled n }

/-- `<pm> remove -y name` (PackageApplier.remove). -/
def OSState.pkgRemove (st : OSState) (name : String) : OSState :=
  { st with pkgInstalled := fun n =>
      if n = name then none else st.pkgInstalled n }

/-- `<pm> upgrade -y name` (PackageApplier.upgrade): moves an installed
package to the manager's available version. -/
def OSState.pkgUpgrade (st : OSState) (name : String) : OSState :=
  { st with pkgInstalled := fun n =>
      if n = name then (st.pkgInstalled n).map (fun _ => st.availVersion name)
      else st.pkgInstalled n }

namespace PackageApplier

/-- PackageApplier.isInstalled / Check: installed flag plus version. -/
def Check (st : OSState) (name : String) : Bool × String :=
  match st.pkgInstalled name with
  | none => (false, "")
  | some v => (true, v)

/-- PackageApplier.Apply. -/
def Apply (st : OSState) (pkg : PackageConfig) (dryRun : Bool) :
    OSState × ApplyResult :=
  if st.pkgManager = "" then
    (st, { Error := some "no supported package manager found (apt/yum/dnf)" })
  else
    let c := Check st pkg.Name
    let isInstalled := c.1
    let installedVersion := c.2
    match pkg.State with
    | .present =>
      if !isInstalled then
        let result : ApplyResult :=
          { Changed := true
            Actions := [st.pkgManager ++ " install " ++ pkg.Name] }
        if dryRun then (st, result)
        else (st.pkgInstall pkg.Name pkg.Version, result)
      else if pkg.Version ≠ "" && installedVersion ≠ pkg.Version then
        let result : ApplyResult :=
          { Changed := true
            Actions := [st.pkgManager ++ " install " ++ pkg.Name ++ "=" ++ pkg.Version] }
        if dryRun then (st, result)
        else (st.pkgInstall pkg.Name pkg.Version, result)
      else (st, { Changed := false })
    | .absent =>
      if isInstalled then
        let result : ApplyResult :=
          { Changed := true
            Actions := [st.pkgManager ++ " remove " ++ pkg.Name] }
        if dryRun then (st, result)
        else (st.pkgRemove pkg.Name, result)
      else (st, { Changed := false })
    | .latest =>
      if !isInstalled then
        let result : ApplyResult :=
          { Changed := true
            Actions := [st.pkgManager ++ " install " ++ pkg.Name] }
        if dryRun then (st, result)
        else (st.pkgInstall pkg.Name "", result)
      else
        -- "Check if update available (simplified - just try to upgrade)":
        -- the upgrade action is emitted and Changed set unconditionally.
        let result : ApplyResult :=
          { Changed := true
            Actions := [st.pkgManager ++ " upgrade " ++ pkg.Name] }
        if dryRun then (st, result)
        else (st.pkgUpgrade pkg.Name, result)

end PackageApplier

/-! ### FileApplier (pkg/apply/file.go) -/

/-- Model of the SHA-256 digest used for content comparison: any injective
digest function is an adequate model of an ideal collision-free hash; the
applier only ever compares digests for equality. -/
def sha256Hex (s : String) : String :=
  "sha256:" ++ s

/-- `os.WriteFile(path, content, 0644)` (FileApplier.writeContent): replaces
the content of an existing file, or creates it with permission bits 0644
owned by the agent process. -/
def OSState.fsWrite (st : OSState) (path content : String) : OSState :=
  { st with files := fun p =>
      if p = path then
        match st.files path with
        | some fs => some { fs with content := content }
        | none => some { content := content, mode := "0644",
                         owner := st.defaultOwner, group := st.defaultGroup }
      else st.files p }

/-- `os.Chmod` (FileApplier.setMode). -/
def OSState.fsChmod (st : OSState) (path mode : String) : OSState :=
  { st with files := fun p =>
      if p = path then (st.files path).map (fun fs => { fs with mode := mode })
      else st.files p }

/-- `chown owner:group path` (FileApplier.setOwnership). -/
def OSState.fsChown (st : OSState) (path owner group : String) : OSState :=
  { st with files := fun p =>
      if p = path then
        (st.files path).map (fun fs => { fs with owner := owner, group := group })
      else st.files p }

namespace FileApplier

/-- FileApplier.getMode. -/
def getMode (st : OSState) (path : String) : Option String :=
  (st.files path).map (·.mode)

/-- FileApplier.getOwnership. -/
def getOwnership (st : OSState) (path : String) : Option (String × String) :=
  (st.files path).map (fun fs => (fs.owner, fs.group))

/-- FileApplier.getSHA256. -/
def getSHA256 (st : OSState) (path : String) : Option String :=
  (st.files path).map (fun fs => sha256Hex fs.content)

/-- FileApplier.needsContentUpdate: compare by digest when a SHA256 is
pinned, else by literal content; a failing read counts as needing update. -/
def needsContentUpdate (st : OSState) (path content expectedSHA256 : String) :
    Bool :=
  if expectedSHA256 ≠ "" then
    match getSHA256 st path with
    | none => true
    | some actual => actual ≠ expectedSHA256
  else
    match st.files path with
    | none => true
    | some fs => fs.content ≠ content

/-- The content branch of FileApplier.Apply. -/
def contentStep (st : OSState) (file : FileConfig) (dryRun pathExists : Bool) :
    OSState × ApplyResult :=
  if file.Content ≠ "" &&
      (!pathExists || needsContentUpdate st file.Path file.Content file.SHA256) then
    let result : ApplyResult :=
      { Changed := true, Actions := ["write content to " ++ file.Path] }
    if dryRun then (st, result) else (st.fsWrite file.Path file.Content, result)
  else (st, { Changed := false })

/-- The permissions branch of FileApplier.Apply: guarded by the stale
existence flag, reading the mode from the possibly-just-written state. -/
def modeStep (st : OSState) (file : FileConfig) (dryRun pathExists : Bool)
    (result : ApplyResult) : OSState × ApplyResult :=
  if file.Mode ≠ "" then
    match getMode st file.Path with
    | none =>
      if pathExists then
        (st, { result with Error := some "failed to get file mode" })
      else (st, result)
    | some currentMode =>
      if pathExists && currentMode ≠ file.Mode then
        let result := { result with
          Changed := true
          Actions := result.Actions ++ ["chmod " ++ file.Mode ++ " " ++ file.Path] }
        if dryRun then (st, result) else (st.fsChmod file.Path file.Mode, result)
      else (st, result)
  else (st, result)

/-- The ownership branch of FileApplier.Apply. -/
def ownerStep (st : OSState) (file : FileConfig) (dryRun pathExists : Bool)
    (result : ApplyResult) : OSState × ApplyResult :=
  if file.Owner ≠ "" || file.Group ≠ "" then
    let owner := if file.Owner = "" then "root" else file.Owner
    let group := if file.Group = "" then "root" else file.Group
    match getOwnership st file.Path with
    | none =>
      if pathExists then
        (st, { result with Error := some "failed to get ownership" })
      else (st, result)
    | some (currentOwner, currentGroup) =>
      if pathExists && (currentOwner ≠ owner || currentGroup ≠ group) then
        let result := { result with
          Changed := true
          Actions := result.Actions ++
            ["chown " ++ owner ++ ":" ++ group ++ " " ++ file.Path] }
        if dryRun then (st, result) else (st.fsChown file.Path owner group, result)
      else (st, result)
  else (st, result)

/-- FileApplier.Apply.  The existence flag is sampled once at entry
(`os.Stat`) and the mode / ownership branches are guarded by that stale
flag, while their reads see the state after any content write — mirroring
the Go control flow (a mode-branch error aborts before ownership). -/
def Apply (st : OSState) (file : FileConfig) (dryRun : Bool) :
    OSState × ApplyResult :=
  let pathExists := (st.files file.Path).isSome
  let p1 := contentStep st file dryRun pathExists
  let p2 := modeStep p1.1 file dryRun pathExists p1.2
  if p2.2.Error ≠ none then p2
  else ownerStep p2.1 file dryRun pathExists p2.2

/-- FileApplier.Check. -/
def Check (st : OSState) (path : String) :
    Option (String × String × String × String) :=
  (st.files path).map (fun fs => (fs.mode, fs.owner, fs.group, sha256Hex fs.content))

end FileApplier

/-! ### Enforcer layer (pkg/reconciler/{service,sysctl,firewall,package,file}.go) -/

/-- reconciler.ReconcileMode. -/
inductive ReconcileMode where
  | disabled
  | dryRun
  | enforce
deriving DecidableEq, Repr

/-- reconciler.ReconcileResult. Errors modelled as message strings. -/
structure ReconcileResult where
  ResourceType : String
  ResourceName : String
  WasCompliant : Bool := false
  Action : String := ""
  Error : Option String := none
  DryRun : Bool := false
deriving DecidableEq, Repr

namespace ServiceEnforcer

/-- ServiceEnforcer.Reconcile: wraps ServiceApplier.Apply with
`dryRun = (mode != enforce)`; returns the result together with the Go
function's second (error) return value. -/
def Reconcile (st : OSState) (svc : ServiceConfig) (mode : ReconcileMode) :
    OSState × ReconcileResult × Option String :=
  let result : ReconcileResult :=
    { ResourceType := "service", ResourceName := svc.Name
      DryRun := mode = .dryRun }
  let p := ServiceApplier.Apply st svc (mode ≠ .enforce)
  let st := p.1
  let applyResult := p.2
  match applyResult.Error with
  | some e => (st, { result with Error := some e }, some e)
  | none =>
    if !applyResult.Changed then
      (st, { result with WasCompliant := true, Action := "compliant" }, none)
    else
      (st, { result with
               WasCompliant := false,
               Action := String.intercalate " " applyResult.Actions }, none)

end ServiceEnforcer

namespace SysctlEnforcer

/-- SysctlEnforcer.Reconcile: performs an extra Get (for logging) before
delegating to SysctlApplier.Apply. -/
def Reconcile (st : OSState) (key expectedValue : String)
    (mode : ReconcileMode) : OSState × ReconcileResult × Option String :=
  let result : ReconcileResult :=
    { ResourceType := "sysctl", ResourceName := key, DryRun := mode = .dryRun }
  match SysctlApplier.Get st key with
  | none =>
    let e := "failed to get current value"
    (st, { result with Error := some e }, some e)
  | some _ =>
    let p := SysctlApplier.Apply st key expectedValue (mode ≠ .enforce)
    let st := p.1
    let applyResult := p.2
    match applyResult.Error with
    | some e => (st, { result with Error := some e }, some e)
    | none =>
      if !applyResult.Changed then
        (st, { result with WasCompliant := true, Action := "compliant" }, none)
      else
        (st, { result with
                 WasCompliant := false,
                 Action := "sysctl -w " ++ key ++ "=" ++ expectedValue }, none)

end SysctlEnforcer

namespace FirewallEnforcer

/-- FirewallEnforcer.Reconcile. -/
def Reconcile (st : OSState) (fw : Option FirewallConfig)
    (mode : ReconcileMode) : OSState × ReconcileResult × Option String :=
  let result : ReconcileResult :=
    { ResourceType := "firewall", ResourceName := "ufw", DryRun := mode = .dryRun }
  match fw with
  | none =>
    (st, { result with WasCompliant := true, Action := "not configured" }, none)
  | some fw =>
    let p := FirewallApplier.Apply st (some fw) (mode ≠ .enforce)
    let st := p.1
    let applyResult := p.2
    match applyResult.Error with
    | some e => (st, { result with Error := some e }, some e)
    | none =>
      if !applyResult.Changed then
        (st, { result with WasCompliant := true, Action := "compliant" }, none)
      else
        (st, { result with
                 WasCompliant := false,
                 Action := String.intercalate "; " applyResult.Actions }, none)

end FirewallEnforcer

namespace PackageEnforcer

/-- PackageEnforcer.Reconcile. -/
def Reconcile (st : OSState) (pkg : PackageConfig) (mode : ReconcileMode) :
    OSState × ReconcileResult × Option String :=
  let result : ReconcileResult :=
    { ResourceType := "package", ResourceName := pkg.Name, DryRun := mode = .dryRun }
  let p := PackageApplier.Apply st pkg (mode ≠ .enforce)
  let st := p.1
  let applyResult := p.2
  match applyResult.Error with
  | some e => (st, { result with Error := some e }, some e)
  | none =>
    if !applyResult.Changed then
      (st, { result with WasCompliant := true, Action := "compliant" }, none)
    else
      (st, { result with
               WasCompliant := false,
               Action := String.intercalate " + " applyResult.Actions }, none)

end PackageEnforcer

namespace FileEnforcer

/-- FileEnforcer.Reconcile. -/
def Reconcile (st : OSState) (file : FileConfig) (mode : ReconcileMode) :
    OSState × ReconcileResult × Option String :=
  let result : ReconcileResult :=
    { ResourceType := "file", ResourceName := file.Path, DryRun := mode = .dryRun }
  let p := FileApplier.Apply st file (mode ≠ .enforce)
  let st := p.1
  let applyResult := p.2
  match applyResult.Error with
  | some e => (st, { result with Error := some e }, some e)
  | none =>
    if !applyResult.Changed then
      (st, { result with WasCompliant := true, Action := "compliant" }, none)
    else
      (st, { result with
               WasCompliant := false,
               Action := String.intercalate " + " applyResult.Actions }, none)

end FileEnforcer

/-! ### Reconciler (pkg/reconciler/reconciler.go)

`ReconcileAll` is embedded for a reconciler as `NewReconciler` constructs it
(all five enforcer references initialized); the reconciler's runtime data is
its mode (the enforcers and appliers themselves are stateless).
`HealthCheck`, whose subject is precisely the nil-ness of the enforcer
references, is embedded separately over a record of optional references. -/

namespace Reconciler

/-- The loop in Reconciler.ReconcileServices: one enforcer call per service,
in list order; a returned error is stored into the result (the enforcer has
already embedded the same error) and never aborts the loop. -/
def reconcileServices (mode : ReconcileMode) (st : OSState) :
    List ServiceConfig → OSState × List ReconcileResult
  | [] => (st, [])
  | svc :: rest =>
    let t := ServiceEnforcer.Reconcile st svc mode
    let result := match t.2.2 with
      | some e => { t.2.1 with Error := some e }
      | none => t.2.1
    let r := reconcileServices mode t.1 rest
    (r.1, result :: r.2)

/-- The loop in Reconciler.ReconcileSysctl (map iteration embedded as
association-list order). -/
def reconcileSysctl (mode : ReconcileMode) (st : OSState) :
    List (String × String) → OSState × List ReconcileResult
  | [] => (st, [])
  | (key, expectedValue) :: rest =>
    let t := SysctlEnforcer.Reconcile st key expectedValue mode
    let result := match t.2.2 with
      | some e => { t.2.1 with Error := some e }
      | none => t.2.1
    let r := reconcileSysctl mode t.1 rest
    (r.1, result :: r.2)

/-- The loop in Reconciler.ReconcilePackages. -/
def reconcilePackages (mode : ReconcileMode) (st : OSState) :
    List PackageConfig → OSState × List ReconcileResult
  | [] => (st, [])
  | pkg :: rest =>
    let t := PackageEnforcer.Reconcile st pkg mode
    let result := match t.2.2 with
      | some e => { t.2.1 with Error := some e }
      | none => t.2.1
    let r := reconcilePackages mode t.1 rest
    (r.1, result :: r.2)

/-- The loop in Reconciler.ReconcileFiles. -/
def reconcileFiles (mode : ReconcileMode) (st : OSState) :
    List FileConfig → OSState × List ReconcileResult
  | [] => (st, [])
  | file :: rest =>
    let t := FileEnforcer.Reconcile st file mode
    let result := match t.2.2 with
      | some e => { t.2.1 with Error := some e }
      | none => t.2.1
    let r := reconcileFiles mode t.1 rest
    (r.1, result :: r.2)

/-- Reconciler.ReconcileAll: short-circuits under disabled mode (Go returns
`(nil, nil)`, embedded as the empty list and no error), otherwise runs
services, sysctl, firewall (only when enabled or with allowed services),
packages (when non-empty) and files (when non-empty), in that order, and
always returns a nil pass-level error. -/
def ReconcileAll (mode : ReconcileMode) (st : OSState) (state : State) :
    OSState × List ReconcileResult × Option String :=
  if mode = .disabled then (st, [], none)
  else
    let pS := reconcileServices mode st state.Services
    let pY := reconcileSysctl mode pS.1 state.Sysctl
    let pF : OSState × List ReconcileResult :=
      if state.Firewall.Enabled || state.Firewall.AllowedServices.length > 0 then
        let t := FirewallEnforcer.Reconcile pY.1 (some state.Firewall) mode
        (t.1, [t.2.1])
      else (pY.1, [])
    let pP : OSState × List ReconcileResult :=
      if state.Packages.length > 0 then reconcilePackages mode pF.1 state.Packages
      else (pF.1, [])
    let pL : OSState × List ReconcileResult :=
      if state.Files.length > 0 then reconcileFiles mode pP.1 state.Files
      else (pP.1, [])
    (pL.1, pS.2 ++ pY.2 ++ pF.2 ++ pP.2 ++ pL.2, none)

/-- Reconciler.ReconcileEvent: returns nil under disabled mode, otherwise
performs a full ReconcileAll over the given state ("For now, reconcile
everything") and returns its error; `eventType` and `resourceName` only
feed the log line. -/
def ReconcileEvent (mode : ReconcileMode) (st : OSState)
    (eventType resourceName : String) (state : State) : OSState × Option String :=
  if mode = .disabled then (st, none)
  else
    let t := ReconcileAll mode st state
    (t.1, t.2.2)

/-- The five enforcer references of a reconciler value, each possibly nil
(Go pointers); the enforcers are stateless, so presence is all that the
reference carries. -/
structure Refs where
  serviceEnforcer : Option Unit
  sysctlEnforcer : Option Unit
  firewallEnforcer : Option Unit
  packageEnforcer : Option Unit
  fileEnforcer : Option Unit
deriving DecidableEq, Repr

/-- Reconciler.HealthCheck: as written it tests only the service and sysctl
enforcer references for nil. -/
def HealthCheck (r : Refs) : Option String :=
  if r.serviceEnforcer.isNone then some "service enforcer not initialized"
  else if r.sysctlEnforcer.isNone then some "sysctl enforcer not initialized"
  else none

end Reconciler

/-! ### Metrics Collector (pkg/metrics/collector.go) -/

namespace Collector

/-- One stored gauge: the value (the Go 1.0 / 0.0 embedded as 1 / 0) plus
its expected/actual label pair. -/
structure Gauge where
  value : Nat
  expected : String
  actual : String
deriving DecidableEq, Repr

/-- The body of the Collector.checkServices loop for one service:
`systemctl is-active` succeeds with exit 0 (and output "active") exactly
when the unit is active, so `err == nil && status == "active"` holds iff
the observed state is `some true`; compliance additionally requires the
desired state to be the literal "running". -/
def serviceGauge (st : OSState) (svc : ServiceConfig) : Gauge :=
  let status := match st.svcActive svc.Name with
    | some true => "active"
    | some false => "inactive"
    | none => ""
  let ok := st.svcActive svc.Name = some true
  { value := if ok && status = "active" && svc.State = .running then 1 else 0
    expected := match svc.State with
      | .running => "running"
      | .stopped => "stopped"
    actual := status }

/-- The body of the Collector.checkSysctl loop for one parameter:
compliant when the read succeeds and the value equals the expected one. -/
def sysctlGauge (st : OSState) (key expectedValue : String) : Gauge :=
  let actualValue := (st.sysctl key).getD ""
  let ok := (st.sysctl key).isSome
  { value := if ok && actualValue = expectedValue then 1 else 0
    expected := expectedValue
    actual := actualValue }

/-- Collector.checkServices: one gauge per service, keyed by name. -/
def checkServices (st : OSState) (services : List ServiceConfig) :
    List (String × Gauge) :=
  services.map (fun svc => (svc.Name, serviceGauge st svc))

/-- Collector.checkSysctl: one gauge per parameter, keyed by key. -/
def checkSysctl (st : OSState) (params : List (String × String)) :
    List (String × Gauge) :=
  params.map (fun p => (p.1, sysctlGauge st p.1 p.2))

end Collector

/-! ### Concrete example states used to instantiate the theorems -/

/-- A concrete OS state: one sysctl value "0" everywhere, all services
inactive and disabled, ufw installed but inactive with no allowed services,
apt detected, every package installed at 1.0 with 2.0 available, an empty
filesystem. -/
def demoOS : OSState :=
  { sysctl := fun _ => some "0"
    svcActive := fun _ => some false
    svcEnabled := fun _ => some false
    ufwInstalled := true
    ufwEnabled := some false
    ufwAllowed := []
    pkgManager := "apt"
    pkgInstalled := fun _ => some "1.0"
    availVersion := fun _ => "2.0"
    files := fun _ => none
    defaultOwner := "root"
    defaultGroup := "root" }

/-- A firewall spec with the firewall on and one allowed service. -/
def demoFw : FirewallConfig :=
  { Enabled := true, AllowedServices := ["ssh"] }

/-- A desired-state snapshot exercising all five resource kinds. -/
def demoState : State :=
  { Services := [{ Name := "nginx", State := .running, Enabled := true }]
    Sysctl := [("net.ipv4.ip_forward", "1")]
    Firewall := demoFw
    Packages := [{ Name := "curl", State := .present }]
    Files := [{ Path := "/tmp/x", Content := "hello", Mode := "0755" }] }

/-- A snapshot whose firewall is off with no allowed services. -/
def demoStateNoFw : State :=
  { Services := [{ Name := "nginx", State := .running, Enabled := true }]
    Sysctl := [("net.ipv4.ip_forward", "1")]
    Firewall := { Enabled := false, AllowedServices := [] }
    Packages := [{ Name := "curl", State := .present }]
    Files := [{ Path := "/tmp/x", Content := "hello", Mode := "0755" }] }

/-- Like `demoOS` but every sysctl read fails, so each sysctl resource in a
pass errors while the other kinds still succeed. -/
def errOS : OSState :=
  { demoOS with sysctl := fun _ => none }

/-- A reconciler whose file-enforcer reference is nil and the rest set. -/
def partialRefs : Reconciler.Refs :=
  { serviceEnforcer := some (), sysctlEnforcer := some ()
    firewallEnforcer := some (), packageEnforcer := some ()
    fileEnforcer := none }

/-- A fully constructed reconciler (as NewReconciler produces). -/
def fullRefs : Reconciler.Refs :=
  { serviceEnforcer := some (), sysctlEnforcer := some ()
    firewallEnforcer := some (), packageEnforcer := some ()
    fileEnforcer := some () }

/-- Whether two OS states agree on the firewall-visible fields. -/
def ufwSame (a b : OSState) : Prop :=
  b.ufwInstalled = a.ufwInstalled ∧ b.ufwEnabled = a.ufwEnabled ∧
    b.ufwAllowed = a.ufwAllowed

/-! ## Helper lemmas: dry-run leaves the OS state untouched -/

theorem sysctlApply_dryRun_fst (st : OSState) (k v : String) :
    (SysctlApplier.Apply st k v true).1 = st := by
  unfold SysctlApplier.Apply SysctlApplier.Get
  cases h : st.sysctl k <;> simp [h]
  split <;> simp

theorem serviceApply_dryRun_fst (st : OSState) (svc : ServiceConfig) :
    (ServiceApplier.Apply st svc true).1 = st := by
  unfold ServiceApplier.Apply
  cases hA : st.svcActive svc.Name <;> simp [hA]
  cases hE : st.svcEnabled svc.Name <;> simp [hE]
  split <;> simp

theorem allowLoop_dryRun_fst (l : List String) : ∀ (st : OSState)
    (acc : ApplyResult), (FirewallApplier.allowLoop st true acc l).1 = st := by
  induction l with
  | nil => intro st acc; rfl
  | cons s rest ih =>
    intro st acc
    simpa [FirewallApplier.allowLoop] using ih st _

theorem firewallApply_dryRun_fst (st : OSState) (fw : Option FirewallConfig) :
    (FirewallApplier.Apply st fw true).1 = st := by
  unfold FirewallApplier.Apply
  cases fw with
  | none => rfl
  | some f =>
    cases hI : st.ufwInstalled with
    | false => simp [hI]
    | true =>
      cases hE : st.ufwEnabled with
      | none => simp [hI, hE]
      | some b =>
        cases hfe : f.Enabled <;> cases b <;>
          simp [hI, hE, hfe, allowLoop_dryRun_fst] <;>
          split <;> simp [allowLoop_dryRun_fst]

theorem packageApply_dryRun_fst (st : OSState) (pkg : PackageConfig) :
    (PackageApplier.Apply st pkg true).1 = st := by
  unfold PackageApplier.Apply PackageApplier.Check
  by_cases hm : st.pkgManager = ""
  · simp [hm]
  · cases hin : st.pkgInstalled pkg.Name <;>
      cases pkg.State <;>
      simp [hm, hin] <;>
      split <;> simp

theorem contentStep_dryRun_fst (st : OSState) (file : FileConfig)
    (pathExists : Bool) :
    (FileApplier.contentStep st file true pathExists).1 = st := by
  unfold FileApplier.contentStep
  split
  · simp
  · rfl

theorem modeStep_dryRun_fst (st : OSState) (file : FileConfig)
    (pathExists : Bool) (result : ApplyResult) :
    (FileApplier.modeStep st file true pathExists result).1 = st := by
  unfold FileApplier.modeStep
  repeat' split
  all_goals simp_all
  all_goals (repeat' split)
  all_goals simp_all

theorem ownerStep_dryRun_fst (st : OSState) (file : FileConfig)
    (pathExists : Bool) (result : ApplyResult) :
    (FileApplier.ownerStep st file true pathExists result).1 = st := by
  unfold FileApplier.ownerStep
  repeat' split
  all_goals simp_all
  all_goals (repeat' split)
  all_goals simp_all

theorem fileApply_dryRun_fst (st : OSState) (file : FileConfig) :
    (FileApplier.Apply st file true).1 = st := by
  unfold FileApplier.Apply
  dsimp only
  split
  · rw [modeStep_dryRun_fst, contentStep_dryRun_fst]
  · rw [ownerStep_dryRun_fst, modeStep_dryRun_fst, contentStep_dryRun_fst]

/-! ## Helper lemmas: consecutive-Apply behaviour of the appliers -/

theorem sysctlApply_idem (st : OSState) (k v : String) :
    (SysctlApplier.Apply (SysctlApplier.Apply st k v false).1 k v false).2.Changed
      = false := by
  unfold SysctlApplier.Apply SysctlApplier.Get
  cases h : st.sysctl k with
  | none => simp [h]
  | some actual =>
    by_cases hv : actual = v
    · simp [h, hv]
    · simp [h, hv, OSState.setSysctl]

theorem serviceApply_idem (st : OSState) (svc : ServiceConfig) :
    (ServiceApplier.Apply (ServiceApplier.Apply st svc false).1 svc false).2.Changed
      = false := by
  unfold ServiceApplier.Apply
  cases hA : st.svcActive svc.Name with
  | none => simp [hA]
  | some a =>
    cases hE : st.svcEnabled svc.Name with
    | none => simp [hA, hE]
    | some e =>
      cases hS : svc.State <;> cases hEn : svc.Enabled <;> cases a <;> cases e <;>
        simp [hA, hE, ServiceApplier.requiredActions, hS, hEn,
          ServiceApplier.runActions, OSState.execSystemctl]

theorem allowLoop_changed_mono (l : List String) : ∀ (st : OSState) (d : Bool)
    (acc : ApplyResult), acc.Changed = true →
    (FirewallApplier.allowLoop st d acc l).2.Changed = true := by
  induction l with
  | nil => intro st d acc h; simpa [FirewallApplier.allowLoop] using h
  | cons s rest ih =>
    intro st d acc h
    simp only [FirewallApplier.allowLoop]
    exact ih _ _ _ rfl

theorem allowLoop_cons_changed (s : String) (rest : List String) (st : OSState)
    (d : Bool) (acc : ApplyResult) :
    (FirewallApplier.allowLoop st d acc (s :: rest)).2.Changed = true := by
  simp only [FirewallApplier.allowLoop]
  exact allowLoop_changed_mono rest _ _ _ rfl

theorem allowLoop_fst_installed (l : List String) : ∀ (st : OSState) (d : Bool)
    (acc : ApplyResult),
    (FirewallApplier.allowLoop st d acc l).1.ufwInstalled = st.ufwInstalled := by
  induction l with
  | nil => intro st d acc; rfl
  | cons s rest ih =>
    intro st d acc
    simp only [FirewallApplier.allowLoop]
    rw [ih]
    cases d <;> simp [OSState.ufwAllow]

theorem allowLoop_fst_enabled (l : List String) : ∀ (st : OSState) (d : Bool)
    (acc : ApplyResult),
    (FirewallApplier.allowLoop st d acc l).1.ufwEnabled = st.ufwEnabled := by
  induction l with
  | nil => intro st d acc; rfl
  | cons s rest ih =>
    intro st d acc
    simp only [FirewallApplier.allowLoop]
    rw [ih]
    cases d <;> simp [OSState.ufwAllow]

theorem firewallApply_changed (st : OSState) (f : FirewallConfig) (b : Bool)
    (d : Bool) (hI : st.ufwInstalled = true) (hE : st.ufwEnabled = some b)
    (hEn : f.Enabled = true) (hA : f.AllowedServices ≠ []) :
    (FirewallApplier.Apply st (some f) d).2.Changed = true := by
  obtain ⟨x, xs, hxs⟩ := List.exists_cons_of_ne_nil hA
  unfold FirewallApplier.Apply
  cases b <;> simp [hI, hE, hEn, hA, hxs, allowLoop_cons_changed]

theorem firewallApply_enforce_ufw (st : OSState) (f : FirewallConfig) (b : Bool)
    (hI : st.ufwInstalled = true) (hE : st.ufwEnabled = some b)
    (hEn : f.Enabled = true) :
    (FirewallApplier.Apply st (some f) false).1.ufwInstalled = true ∧
    (FirewallApplier.Apply st (some f) false).1.ufwEnabled = some true := by
  unfold FirewallApplier.Apply
  cases b <;>
    simp [hI, hE, hEn, allowLoop_fst_installed, allowLoop_fst_enabled,
      OSState.ufwEnable] <;>
    split <;>
    simp [hI, hE, allowLoop_fst_installed, allowLoop_fst_enabled,
      OSState.ufwEnable]

theorem packageApply_latest_changed (st : OSState) (pkg : PackageConfig)
    (v : String) (d : Bool) (hm : st.pkgManager ≠ "")
    (hs : pkg.State = .latest) (hi : st.pkgInstalled pkg.Name = some v) :
    (PackageApplier.Apply st pkg d).2.Changed = true := by
  unfold PackageApplier.Apply PackageApplier.Check
  simp [hm, hi, hs]
  split <;> rfl

theorem packageApply_latest_state (st : OSState) (pkg : PackageConfig)
    (v : String) (hm : st.pkgManager ≠ "") (hs : pkg.State = .latest)
    (hi : st.pkgInstalled pkg.Name = some v) :
    (PackageApplier.Apply st pkg false).1.pkgManager = st.pkgManager ∧
    (PackageApplier.Apply st pkg false).1.pkgInstalled pkg.Name
      = some (st.availVersion pkg.Name) := by
  unfold PackageApplier.Apply PackageApplier.Check
  simp [hm, hi, hs, OSState.pkgUpgrade]

theorem fileApply_create_files (st : OSState) (file : FileConfig)
    (h0 : st.files file.Path = none) (hc : file.Content ≠ "") :
    (FileApplier.Apply st file false).1.files file.Path
      = some { content := file.Content, mode := "0644",
               owner := st.defaultOwner, group := st.defaultGroup } := by
  unfold FileApplier.Apply FileApplier.contentStep FileApplier.modeStep
    FileApplier.ownerStep FileApplier.getMode FileApplier.getOwnership
    OSState.fsWrite
  simp only [h0, hc]
  simp [h0, hc]
  try (split <;> simp)

theorem fileApply_mode_drift_changed (st : OSState) (file : FileConfig)
    (o g : String)
    (h1 : st.files file.Path
      = some { content := file.Content, mode := "0644", owner := o, group := g })
    (hsha : file.SHA256 = "") (hm : file.Mode ≠ "")
    (hm2 : file.Mode ≠ "0644") :
    (FileApplier.Apply st file false).2.Changed = true := by
  have hm2x : ¬("0644" = file.Mode) := fun h => hm2 h.symm
  unfold FileApplier.Apply FileApplier.contentStep
    FileApplier.needsContentUpdate FileApplier.modeStep FileApplier.ownerStep
    FileApplier.getMode FileApplier.getOwnership OSState.fsChmod
  simp [h1, hsha, hm, hm2x]
  repeat' split
  all_goals rfl

/-! ## Helper lemmas: enforcer output structure -/

theorem serviceEnforcer_fst (st : OSState) (svc : ServiceConfig)
    (mode : ReconcileMode) :
    (ServiceEnforcer.Reconcile st svc mode).1
      = (ServiceApplier.Apply st svc (mode ≠ .enforce)).1 := by
  unfold ServiceEnforcer.Reconcile
  dsimp only
  split
  · rfl
  · split <;> rfl

theorem sysctlEnforcer_fst (st : OSState) (key v : String)
    (mode : ReconcileMode) :
    (SysctlEnforcer.Reconcile st key v mode).1
      = (SysctlApplier.Apply st key v (mode ≠ .enforce)).1 := by
  unfold SysctlEnforcer.Reconcile
  dsimp only
  split
  · rename_i hg
    unfold SysctlApplier.Apply SysctlApplier.Get
    unfold SysctlApplier.Get at hg
    simp [hg]
  · split
    · rfl
    · split <;> rfl

theorem firewallEnforcer_fst (st : OSState) (fw : Option FirewallConfig)
    (mode : ReconcileMode) :
    (FirewallEnforcer.Reconcile st fw mode).1
      = (FirewallApplier.Apply st fw (mode ≠ .enforce)).1 := by
  unfold FirewallEnforcer.Reconcile
  dsimp only
  split
  · unfold FirewallApplier.Apply; rfl
  · split
    · rfl
    · split <;> rfl

theorem packageEnforcer_fst (st : OSState) (pkg : PackageConfig)
    (mode : ReconcileMode) :
    (PackageEnforcer.Reconcile st pkg mode).1
      = (PackageApplier.Apply st pkg (mode ≠ .enforce)).1 := by
  unfold PackageEnforcer.Reconcile
  dsimp only
  split
  · rfl
  · split <;> rfl

theorem fileEnforcer_fst (st : OSState) (file : FileConfig)
    (mode : ReconcileMode) :
    (FileEnforcer.Reconcile st file mode).1
      = (FileApplier.Apply st file (mode ≠ .enforce)).1 := by
  unfold FileEnforcer.Reconcile
  dsimp only
  split
  · rfl
  · split <;> rfl

theorem serviceEnforcer_shape (st : OSState) (svc : ServiceConfig)
    (mode : ReconcileMode) :
    (ServiceEnforcer.Reconcile st svc mode).2.1.ResourceType = "service" ∧
    (ServiceEnforcer.Reconcile st svc mode).2.1.ResourceName = svc.Name := by
  unfold ServiceEnforcer.Reconcile
  dsimp only
  split
  · exact ⟨rfl, rfl⟩
  · split <;> exact ⟨rfl, rfl⟩

theorem sysctlEnforcer_shape (st : OSState) (key v : String)
    (mode : ReconcileMode) :
    (SysctlEnforcer.Reconcile st key v mode).2.1.ResourceType = "sysctl" ∧
    (SysctlEnforcer.Reconcile st key v mode).2.1.ResourceName = key := by
  unfold SysctlEnforcer.Reconcile
  dsimp only
  split
  · exact ⟨rfl, rfl⟩
  · split
    · exact ⟨rfl, rfl⟩
    · split <;> exact ⟨rfl, rfl⟩

theorem firewallEnforcer_shape (st : OSState) (fw : Option FirewallConfig)
    (mode : ReconcileMode) :
    (FirewallEnforcer.Reconcile st fw mode).2.1.ResourceType = "firewall" ∧
    (FirewallEnforcer.Reconcile st fw mode).2.1.ResourceName = "ufw" := by
  unfold FirewallEnforcer.Reconcile
  dsimp only
  split
  · exact ⟨rfl, rfl⟩
  · split
    · exact ⟨rfl, rfl⟩
    · split <;> exact ⟨rfl, rfl⟩

theorem packageEnforcer_shape (st : OSState) (pkg : PackageConfig)
    (mode : ReconcileMode) :
    (PackageEnforcer.Reconcile st pkg mode).2.1.ResourceType = "package" ∧
    (PackageEnforcer.Reconcile st pkg mode).2.1.ResourceName = pkg.Name := by
  unfold PackageEnforcer.Reconcile
  dsimp only
  split
  · exact ⟨rfl, rfl⟩
  · split <;> exact ⟨rfl, rfl⟩

theorem fileEnforcer_shape (st : OSState) (file : FileConfig)
    (mode : ReconcileMode) :
    (FileEnforcer.Reconcile st file mode).2.1.ResourceType = "file" ∧
    (FileEnforcer.Reconcile st file mode).2.1.ResourceName = file.Path := by
  unfold FileEnforcer.Reconcile
  dsimp only
  split
  · exact ⟨rfl, rfl⟩
  · split <;> exact ⟨rfl, rfl⟩

/-! ## Helper lemmas: non-firewall appliers never touch the firewall state -/

theorem sysctlApply_ufwSame (st : OSState) (k v : String) (d : Bool) :
    ufwSame st (SysctlApplier.Apply st k v d).1 := by
  unfold ufwSame SysctlApplier.Apply SysctlApplier.Get
  refine ⟨?_, ?_, ?_⟩ <;>
    · cases h : st.sysctl k <;> simp [h, OSState.setSysctl] <;>
        (repeat' split) <;> rfl

theorem execSystemctl_ufwSame (st : OSState) (a n : String) :
    ufwSame st (st.execSystemctl a n) := by
  unfold ufwSame OSState.execSystemctl
  repeat' split
  all_goals exact ⟨rfl, rfl, rfl⟩

theorem runActions_ufwSame (l : List String) : ∀ (st : OSState) (n : String),
    ufwSame st (ServiceApplier.runActions st n l) := by
  induction l with
  | nil => intro st n; exact ⟨rfl, rfl, rfl⟩
  | cons a rest ih =>
    intro st n
    have h1 := execSystemctl_ufwSame st a n
    have h2 := ih (st.execSystemctl a n) n
    simp only [ServiceApplier.runActions]
    exact ⟨h2.1.trans h1.1, h2.2.1.trans h1.2.1, h2.2.2.trans h1.2.2⟩

theorem serviceApply_ufwSame (st : OSState) (svc : ServiceConfig) (d : Bool) :
    ufwSame st (ServiceApplier.Apply st svc d).1 := by
  unfold ServiceApplier.Apply
  cases hA : st.svcActive svc.Name with
  | none => exact ⟨rfl, rfl, rfl⟩
  | some a =>
    cases hE : st.svcEnabled svc.Name with
    | none => exact ⟨rfl, rfl, rfl⟩
    | some e =>
      simp only
      split
      · exact ⟨rfl, rfl, rfl⟩
      · split
        · exact ⟨rfl, rfl, rfl⟩
        · exact runActions_ufwSame _ st svc.Name

theorem packageApply_ufwSame (st : OSState) (pkg : PackageConfig) (d : Bool) :
    ufwSame st (PackageApplier.Apply st pkg d).1 := by
  unfold ufwSame PackageApplier.Apply PackageApplier.Check
  refine ⟨?_, ?_, ?_⟩ <;>
    · by_cases hm : st.pkgManager = ""
      · simp [hm]
      · cases hin : st.pkgInstalled pkg.Name <;> cases pkg.State <;>
          simp [hm, hin, OSState.pkgInstall, OSState.pkgRemove,
            OSState.pkgUpgrade] <;>
          (repeat' split) <;> rfl

theorem contentStep_ufwSame (st : OSState) (file : FileConfig)
    (d pathExists : Bool) :
    ufwSame st (FileApplier.contentStep st file d pathExists).1 := by
  unfold ufwSame FileApplier.contentStep
  refine ⟨?_, ?_, ?_⟩ <;>
    · dsimp only
      repeat' split
      all_goals rfl

theorem modeStep_ufwSame (st : OSState) (file : FileConfig)
    (d pathExists : Bool) (result : ApplyResult) :
    ufwSame st (FileApplier.modeStep st file d pathExists result).1 := by
  unfold ufwSame FileApplier.modeStep
  refine ⟨?_, ?_, ?_⟩ <;>
    · dsimp only
      repeat' split
      all_goals rfl

theorem ownerStep_ufwSame (st : OSState) (file : FileConfig)
    (d pathExists : Bool) (result : ApplyResult) :
    ufwSame st (FileApplier.ownerStep st file d pathExists result).1 := by
  unfold ufwSame FileApplier.ownerStep
  refine ⟨?_, ?_, ?_⟩ <;>
    · dsimp only
      repeat' split
      all_goals rfl

theorem ufwSame_trans {a b c : OSState} (h1 : ufwSame a b) (h2 : ufwSame b c) :
    ufwSame a c :=
  ⟨h2.1.trans h1.1, h2.2.1.trans h1.2.1, h2.2.2.trans h1.2.2⟩

theorem fileApply_ufwSame (st : OSState) (file : FileConfig) (d : Bool) :
    ufwSame st (FileApplier.Apply st file d).1 := by
  unfold FileApplier.Apply
  dsimp only
  have hc := contentStep_ufwSame st file d ((st.files file.Path).isSome)
  have hm := modeStep_ufwSame (FileApplier.contentStep st file d
    ((st.files file.Path).isSome)).1 file d ((st.files file.Path).isSome)
    (FileApplier.contentStep st file d ((st.files file.Path).isSome)).2
  have hcm := ufwSame_trans hc hm
  split
  · exact hcm
  · exact ufwSame_trans hcm (ownerStep_ufwSame _ file d _ _)

/-! ## Helper lemmas: enforcers under non-enforce modes and firewall frame -/

theorem serviceEnforcer_dry_fst (mode : ReconcileMode)
    (h : mode ≠ ReconcileMode.enforce) : ∀ (st : OSState) (svc : ServiceConfig),
    (ServiceEnforcer.Reconcile st svc mode).1 = st := by
  intro st svc
  rw [serviceEnforcer_fst]
  cases mode with
  | disabled => exact serviceApply_dryRun_fst st svc
  | dryRun => exact serviceApply_dryRun_fst st svc
  | enforce => exact absurd rfl h

theorem sysctlEnforcer_dry_fst (mode : ReconcileMode)
    (h : mode ≠ ReconcileMode.enforce) : ∀ (st : OSState) (key v : String),
    (SysctlEnforcer.Reconcile st key v mode).1 = st := by
  intro st key v
  rw [sysctlEnforcer_fst]
  cases mode with
  | disabled => exact sysctlApply_dryRun_fst st key v
  | dryRun => exact sysctlApply_dryRun_fst st key v
  | enforce => exact absurd rfl h

theorem firewallEnforcer_dry_fst (mode : ReconcileMode)
    (h : mode ≠ ReconcileMode.enforce) : ∀ (st : OSState)
    (fw : Option FirewallConfig),
    (FirewallEnforcer.Reconcile st fw mode).1 = st := by
  intro st fw
  rw [firewallEnforcer_fst]
  cases mode with
  | disabled => exact firewallApply_dryRun_fst st fw
  | dryRun => exact firewallApply_dryRun_fst st fw
  | enforce => exact absurd rfl h

theorem packageEnforcer_dry_fst (mode : ReconcileMode)
    (h : mode ≠ ReconcileMode.enforce) : ∀ (st : OSState) (pkg : PackageConfig),
    (PackageEnforcer.Reconcile st pkg mode).1 = st := by
  intro st pkg
  rw [packageEnforcer_fst]
  cases mode with
  | disabled => exact packageApply_dryRun_fst st pkg
  | dryRun => exact packageApply_dryRun_fst st pkg
  | enforce => exact absurd rfl h

theorem fileEnforcer_dry_fst (mode : ReconcileMode)
    (h : mode ≠ ReconcileMode.enforce) : ∀ (st : OSState) (file : FileConfig),
    (FileEnforcer.Reconcile st file mode).1 = st := by
  intro st file
  rw [fileEnforcer_fst]
  cases mode with
  | disabled => exact fileApply_dryRun_fst st file
  | dryRun => exact fileApply_dryRun_fst st file
  | enforce => exact absurd rfl h

theorem serviceEnforcer_ufwSame (st : OSState) (svc : ServiceConfig)
    (mode : ReconcileMode) :
    ufwSame st (ServiceEnforcer.Reconcile st svc mode).1 := by
  rw [serviceEnforcer_fst]; exact serviceApply_ufwSame st svc _

theorem sysctlEnforcer_ufwSame (st : OSState) (key v : String)
    (mode : ReconcileMode) :
    ufwSame st (SysctlEnforcer.Reconcile st key v mode).1 := by
  rw [sysctlEnforcer_fst]; exact sysctlApply_ufwSame st key v _

theorem packageEnforcer_ufwSame (st : OSState) (pkg : PackageConfig)
    (mode : ReconcileMode) :
    ufwSame st (PackageEnforcer.Reconcile st pkg mode).1 := by
  rw [packageEnforcer_fst]; exact packageApply_ufwSame st pkg _

theorem fileEnforcer_ufwSame (st : OSState) (file : FileConfig)
    (mode : ReconcileMode) :
    ufwSame st (FileEnforcer.Reconcile st file mode).1 := by
  rw [fileEnforcer_fst]; exact fileApply_ufwSame st file _

/-! ## Helper lemmas: the per-kind reconciliation loops -/

theorem reconcileServices_length (mode : ReconcileMode) :
    ∀ (st : OSState) (l : List ServiceConfig),
    (Reconciler.reconcileServices mode st l).2.length = l.length := by
  intro st l
  induction l generalizing st with
  | nil => rfl
  | cons svc rest ih => simp [Reconciler.reconcileServices, ih]

theorem reconcileSysctl_length (mode : ReconcileMode) :
    ∀ (st : OSState) (l : List (String × String)),
    (Reconciler.reconcileSysctl mode st l).2.length = l.length := by
  intro st l
  induction l generalizing st with
  | nil => rfl
  | cons kv rest ih => simp [Reconciler.reconcileSysctl, ih]

theorem reconcilePackages_length (mode : ReconcileMode) :
    ∀ (st : OSState) (l : List PackageConfig),
    (Reconciler.reconcilePackages mode st l).2.length = l.length := by
  intro st l
  induction l generalizing st with
  | nil => rfl
  | cons pkg rest ih => simp [Reconciler.reconcilePackages, ih]

theorem reconcileFiles_length (mode : ReconcileMode) :
    ∀ (st : OSState) (l : List FileConfig),
    (Reconciler.reconcileFiles mode st l).2.length = l.length := by
  intro st l
  induction l generalizing st with
  | nil => rfl
  | cons file rest ih => simp [Reconciler.reconcileFiles, ih]

theorem reconcileServices_types (mode : ReconcileMode) :
    ∀ (st : OSState) (l : List ServiceConfig),
    (Reconciler.reconcileServices mode st l).2.map (fun r => r.ResourceType)
      = l.map (fun _ => "service") := by
  intro st l
  induction l generalizing st with
  | nil => rfl
  | cons svc rest ih =>
    cases h : (ServiceEnforcer.Reconcile st svc mode).2.2 <;>
      simp [Reconciler.reconcileServices, h, ih,
        (serviceEnforcer_shape st svc mode).1]

theorem reconcileSysctl_types (mode : ReconcileMode) :
    ∀ (st : OSState) (l : List (String × String)),
    (Reconciler.reconcileSysctl mode st l).2.map (fun r => r.ResourceType)
      = l.map (fun _ => "sysctl") := by
  intro st l
  induction l generalizing st with
  | nil => rfl
  | cons kv rest ih =>
    cases h : (SysctlEnforcer.Reconcile st kv.1 kv.2 mode).2.2 <;>
      simp [Reconciler.reconcileSysctl, h, ih,
        (sysctlEnforcer_shape st kv.1 kv.2 mode).1]

theorem reconcilePackages_types (mode : ReconcileMode) :
    ∀ (st : OSState) (l : List PackageConfig),
    (Reconciler.reconcilePackages mode st l).2.map (fun r => r.ResourceType)
      = l.map (fun _ => "package") := by
  intro st l
  induction l generalizing st with
  | nil => rfl
  | cons pkg rest ih =>
    cases h : (PackageEnforcer.Reconcile st pkg mode).2.2 <;>
      simp [Reconciler.reconcilePackages, h, ih,
        (packageEnforcer_shape st pkg mode).1]

theorem reconcileFiles_types (mode : ReconcileMode) :
    ∀ (st : OSState) (l : List FileConfig),
    (Reconciler.reconcileFiles mode st l).2.map (fun r => r.ResourceType)
      = l.map (fun _ => "file") := by
  intro st l
  induction l generalizing st with
  | nil => rfl
  | cons file rest ih =>
    cases h : (FileEnforcer.Reconcile st file mode).2.2 <;>
      simp [Reconciler.reconcileFiles, h, ih,
        (fileEnforcer_shape st file mode).1]

theorem reconcileServices_names (mode : ReconcileMode) :
    ∀ (st : OSState) (l : List ServiceConfig),
    (Reconciler.reconcileServices mode st l).2.map (fun r => r.ResourceName)
      = l.map (fun svc => svc.Name) := by
  intro st l
  induction l generalizing st with
  | nil => rfl
  | cons svc rest ih =>
    cases h : (ServiceEnforcer.Reconcile st svc mode).2.2 <;>
      simp [Reconciler.reconcileServices, h, ih,
        (serviceEnforcer_shape st svc mode).2]

theorem reconcileSysctl_names (mode : ReconcileMode) :
    ∀ (st : OSState) (l : List (String × String)),
    (Reconciler.reconcileSysctl mode st l).2.map (fun r => r.ResourceName)
      = l.map (fun kv => kv.1) := by
  intro st l
  induction l generalizing st with
  | nil => rfl
  | cons kv rest ih =>
    cases h : (SysctlEnforcer.Reconcile st kv.1 kv.2 mode).2.2 <;>
      simp [Reconciler.reconcileSysctl, h, ih,
        (sysctlEnforcer_shape st kv.1 kv.2 mode).2]

theorem reconcilePackages_names (mode : ReconcileMode) :
    ∀ (st : OSState) (l : List PackageConfig),
    (Reconciler.reconcilePackages mode st l).2.map (fun r => r.ResourceName)
      = l.map (fun pkg => pkg.Name) := by
  intro st l
  induction l generalizing st with
  | nil => rfl
  | cons pkg rest ih =>
    cases h : (PackageEnforcer.Reconcile st pkg mode).2.2 <;>
      simp [Reconciler.reconcilePackages, h, ih,
        (packageEnforcer_shape st pkg mode).2]

theorem reconcileFiles_names (mode : ReconcileMode) :
    ∀ (st : OSState) (l : List FileConfig),
    (Reconciler.reconcileFiles mode st l).2.map (fun r => r.ResourceName)
      = l.map (fun file => file.Path) := by
  intro st l
  induction l generalizing st with
  | nil => rfl
  | cons file rest ih =>
    cases h : (FileEnforcer.Reconcile st file mode).2.2 <;>
      simp [Reconciler.reconcileFiles, h, ih,
        (fileEnforcer_shape st file mode).2]

theorem reconcileServices_dry_fst (mode : ReconcileMode)
    (h : mode ≠ ReconcileMode.enforce) : ∀ (st : OSState)
    (l : List ServiceConfig), (Reconciler.reconcileServices mode st l).1 = st := by
  intro st l
  induction l generalizing st with
  | nil => rfl
  | cons svc rest ih =>
    simp [Reconciler.reconcileServices, ih, serviceEnforcer_dry_fst mode h]

theorem reconcileSysctl_dry_fst (mode : ReconcileMode)
    (h : mode ≠ ReconcileMode.enforce) : ∀ (st : OSState)
    (l : List (String × String)),
    (Reconciler.reconcileSysctl mode st l).1 = st := by
  intro st l
  induction l generalizing st with
  | nil => rfl
  | cons kv rest ih =>
    simp [Reconciler.reconcileSysctl, ih, sysctlEnforcer_dry_fst mode h]

theorem reconcilePackages_dry_fst (mode : ReconcileMode)
    (h : mode ≠ ReconcileMode.enforce) : ∀ (st : OSState)
    (l : List PackageConfig),
    (Reconciler.reconcilePackages mode st l).1 = st := by
  intro st l
  induction l generalizing st with
  | nil => rfl
  | cons pkg rest ih =>
    simp [Reconciler.reconcilePackages, ih, packageEnforcer_dry_fst mode h]

theorem reconcileFiles_dry_fst (mode : ReconcileMode)
    (h : mode ≠ ReconcileMode.enforce) : ∀ (st : OSState) (l : List FileConfig),
    (Reconciler.reconcileFiles mode st l).1 = st := by
  intro st l
  induction l generalizing st with
  | nil => rfl
  | cons file rest ih =>
    simp [Reconciler.reconcileFiles, ih, fileEnforcer_dry_fst mode h]

theorem reconcileServices_ufwSame (mode : ReconcileMode) : ∀ (st : OSState)
    (l : List ServiceConfig),
    ufwSame st (Reconciler.reconcileServices mode st l).1 := by
  intro st l
  induction l generalizing st with
  | nil => exact ⟨rfl, rfl, rfl⟩
  | cons svc rest ih =>
    simp only [Reconciler.reconcileServices]
    exact ufwSame_trans (serviceEnforcer_ufwSame st svc mode) (ih _)

theorem reconcileSysctl_ufwSame (mode : ReconcileMode) : ∀ (st : OSState)
    (l : List (String × String)),
    ufwSame st (Reconciler.reconcileSysctl mode st l).1 := by
  intro st l
  induction l generalizing st with
  | nil => exact ⟨rfl, rfl, rfl⟩
  | cons kv rest ih =>
    simp only [Reconciler.reconcileSysctl]
    exact ufwSame_trans (sysctlEnforcer_ufwSame st kv.1 kv.2 mode) (ih _)

theorem reconcilePackages_ufwSame (mode : ReconcileMode) : ∀ (st : OSState)
    (l : List PackageConfig),
    ufwSame st (Reconciler.reconcilePackages mode st l).1 := by
  intro st l
  induction l generalizing st with
  | nil => exact ⟨rfl, rfl, rfl⟩
  | cons pkg rest ih =>
    simp only [Reconciler.reconcilePackages]
    exact ufwSame_trans (packageEnforcer_ufwSame st pkg mode) (ih _)

theorem reconcileFiles_ufwSame (mode : ReconcileMode) : ∀ (st : OSState)
    (l : List FileConfig),
    ufwSame st (Reconciler.reconcileFiles mode st l).1 := by
  intro st l
  induction l generalizing st with
  | nil => exact ⟨rfl, rfl, rfl⟩
  | cons file rest ih =>
    simp only [Reconciler.reconcileFiles]
    exact ufwSame_trans (fileEnforcer_ufwSame st file mode) (ih _)

theorem firewallEnforcer_type (st : OSState) (fw : Option FirewallConfig)
    (mode : ReconcileMode) :
    (FirewallEnforcer.Reconcile st fw mode).2.1.ResourceType = "firewall" :=
  (firewallEnforcer_shape st fw mode).1

theorem firewallEnforcer_name (st : OSState) (fw : Option FirewallConfig)
    (mode : ReconcileMode) :
    (FirewallEnforcer.Reconcile st fw mode).2.1.ResourceName = "ufw" :=
  (firewallEnforcer_shape st fw mode).2

/-! ## Helper lemmas: ReconcileAll assembly -/

theorem reconcileAll_err (mode : ReconcileMode) (st : OSState) (state : State) :
    (Reconciler.ReconcileAll mode st state).2.2 = none := by
  unfold Reconciler.ReconcileAll
  split <;> rfl

theorem reconcileAll_length (mode : ReconcileMode) (st : OSState)
    (state : State) (h : mode ≠ ReconcileMode.disabled) :
    (Reconciler.ReconcileAll mode st state).2.1.length =
      state.Services.length + state.Sysctl.length +
      (if state.Firewall.Enabled || state.Firewall.AllowedServices.length > 0
        then 1 else 0) +
      state.Packages.length + state.Files.length := by
  unfold Reconciler.ReconcileAll
  rw [if_neg h]
  dsimp only
  simp only [List.length_append]
  split <;> split <;> split <;>
    simp_all [reconcileServices_length, reconcileSysctl_length,
      reconcilePackages_length, reconcileFiles_length,
      Nat.not_lt, Nat.le_zero] <;>
    try omega

theorem reconcileAll_types (mode : ReconcileMode) (st : OSState)
    (state : State) (h : mode ≠ ReconcileMode.disabled) :
    (Reconciler.ReconcileAll mode st state).2.1.map (fun r => r.ResourceType) =
      state.Services.map (fun _ => "service") ++
      state.Sysctl.map (fun _ => "sysctl") ++
      (if state.Firewall.Enabled || state.Firewall.AllowedServices.length > 0
        then ["firewall"] else []) ++
      state.Packages.map (fun _ => "package") ++
      state.Files.map (fun _ => "file") := by
  unfold Reconciler.ReconcileAll
  rw [if_neg h]
  dsimp only
  simp only [List.map_append]
  split <;> split <;> split <;>
    simp_all [reconcileServices_types, reconcileSysctl_types,
      reconcilePackages_types, reconcileFiles_types, firewallEnforcer_type,
      Nat.not_lt, Nat.le_zero, List.length_eq_zero]

theorem reconcileAll_names (mode : ReconcileMode) (st : OSState)
    (state : State) (h : mode ≠ ReconcileMode.disabled) :
    (Reconciler.ReconcileAll mode st state).2.1.map (fun r => r.ResourceName) =
      state.Services.map (fun svc => svc.Name) ++
      state.Sysctl.map (fun kv => kv.1) ++
      (if state.Firewall.Enabled || state.Firewall.AllowedServices.length > 0
        then ["ufw"] else []) ++
      state.Packages.map (fun pkg => pkg.Name) ++
      state.Files.map (fun file => file.Path) := by
  unfold Reconciler.ReconcileAll
  rw [if_neg h]
  dsimp only
  simp only [List.map_append]
  split <;> split <;> split <;>
    simp_all [reconcileServices_names, reconcileSysctl_names,
      reconcilePackages_names, reconcileFiles_names, firewallEnforcer_name,
      Nat.not_lt, Nat.le_zero, List.length_eq_zero]

theorem reconcileAll_dry_fst (mode : ReconcileMode) (st : OSState)
    (state : State) (h : mode ≠ ReconcileMode.enforce) :
    (Reconciler.ReconcileAll mode st state).1 = st := by
  by_cases hd : mode = ReconcileMode.disabled
  · subst hd; rfl
  · unfold Reconciler.ReconcileAll
    rw [if_neg hd]
    dsimp only
    split <;> split <;> split <;>
      simp [reconcileServices_dry_fst mode h, reconcileSysctl_dry_fst mode h,
        reconcilePackages_dry_fst mode h, reconcileFiles_dry_fst mode h,
        firewallEnforcer_dry_fst mode h]

theorem reconcileAll_ufwSame (mode : ReconcileMode) (st : OSState)
    (state : State) (hEn : state.Firewall.Enabled = false)
    (hA : state.Firewall.AllowedServices = []) :
    ufwSame st (Reconciler.ReconcileAll mode st state).1 := by
  by_cases hd : mode = ReconcileMode.disabled
  · subst hd; exact ⟨rfl, rfl, rfl⟩
  · unfold Reconciler.ReconcileAll
    rw [if_neg hd]
    dsimp only
    simp [hEn, hA]
    have h1 := reconcileServices_ufwSame mode st state.Services
    have h2 := reconcileSysctl_ufwSame mode
      (Reconciler.reconcileServices mode st state.Services).1 state.Sysctl
    have h12 := ufwSame_trans h1 h2
    split <;> split <;>
      first
        | exact ufwSame_trans (ufwSame_trans h12
            (reconcilePackages_ufwSame mode _ state.Packages))
            (reconcileFiles_ufwSame mode _ state.Files)
        | exact ufwSame_trans h12
            (reconcilePackages_ufwSame mode _ state.Packages)
        | exact ufwSame_trans h12 (reconcileFiles_ufwSame mode _ state.Files)
        | exact h12

/-! ## Claim theorems -/

/-- Claim C1, counterexample: with ufw installed and inactive and a desired
firewall config Enabled=true, AllowedServices=["ssh"], the second of two
consecutive `FirewallApplier.Apply(fw, dryRun=false)` calls still returns
Changed=true (the allowed-services loop sets Changed unconditionally), so
the applier is not idempotent as the claim states. -/
theorem claim1_counterexample :
    demoFw.Enabled = true ∧ demoFw.AllowedServices ≠ [] ∧
    (FirewallApplier.Apply (FirewallApplier.Apply demoOS (some demoFw) false).1
        (some demoFw) false).2.Changed = true ∧
    (FirewallApplier.Apply (FirewallApplier.Apply demoOS (some demoFw) false).1
        (some demoFw) false).2.Error = none := by
  exact ⟨rfl, by decide, rfl, rfl⟩

/-- Claim C1, amended: the sysctl and service appliers are idempotent — the
second of two consecutive `Apply(R, dryRun=false)` calls returns
Changed=false — but three cases violate idempotence, each returning
Changed=true on the second of two consecutive calls: the firewall applier
with Enabled=true and a non-empty AllowedServices list; the package applier
for desired state `latest` on an already-installed package; and the file
applier creating a missing file whose spec has content, no SHA pin and a
desired mode other than 0644 (the creating call hard-codes 0644, so the
second call emits the chmod it skipped). -/
theorem claim1_amended :
    (∀ (st : OSState) (k v : String),
      (SysctlApplier.Apply (SysctlApplier.Apply st k v false).1 k v
          false).2.Changed = false) ∧
    (∀ (st : OSState) (svc : ServiceConfig),
      (ServiceApplier.Apply (ServiceApplier.Apply st svc false).1 svc
          false).2.Changed = false) ∧
    (∀ (st : OSState) (f : FirewallConfig) (b : Bool),
      st.ufwInstalled = true → st.ufwEnabled = some b → f.Enabled = true →
      f.AllowedServices ≠ [] →
      (FirewallApplier.Apply (FirewallApplier.Apply st (some f) false).1
          (some f) false).2.Changed = true) ∧
    (∀ (st : OSState) (pkg : PackageConfig) (v : String),
      st.pkgManager ≠ "" → pkg.State = .latest →
      st.pkgInstalled pkg.Name = some v →
      (PackageApplier.Apply (PackageApplier.Apply st pkg false).1 pkg
          false).2.Changed = true) ∧
    (∀ (st : OSState) (file : FileConfig),
      st.files file.Path = none → file.Content ≠ "" → file.SHA256 = "" →
      file.Mode ≠ "" → file.Mode ≠ "0644" →
      (FileApplier.Apply (FileApplier.Apply st file false).1 file
          false).2.Changed = true) := by
  refine ⟨sysctlApply_idem, serviceApply_idem, ?_, ?_, ?_⟩
  · intro st f b hI hE hEn hA
    obtain ⟨h1, h2⟩ := firewallApply_enforce_ufw st f b hI hE hEn
    exact firewallApply_changed _ f true false h1 h2 hEn hA
  · intro st pkg v hm hs hi
    obtain ⟨h1, h2⟩ := packageApply_latest_state st pkg v hm hs hi
    exact packageApply_latest_changed _ pkg _ false (by rw [h1]; exact hm) hs h2
  · intro st file h0 hc hsha hmode hmode2
    exact fileApply_mode_drift_changed _ file st.defaultOwner st.defaultGroup
      (fileApply_create_files st file h0 hc) hsha hmode hmode2

/-- Claim C1, witness: the amended claim instantiated at the concrete demo
state for all three non-idempotent cases. -/
theorem claim1_witness :
    demoOS.ufwInstalled = true ∧ demoOS.ufwEnabled = some false ∧
    (FirewallApplier.Apply (FirewallApplier.Apply demoOS (some demoFw) false).1
        (some demoFw) false).2.Changed = true ∧
    demoOS.pkgManager ≠ "" ∧
    demoOS.pkgInstalled "curl" = some "1.0" ∧
    (PackageApplier.Apply (PackageApplier.Apply demoOS
        { Name := "curl", State := .latest } false).1
        { Name := "curl", State := .latest } false).2.Changed = true ∧
    demoOS.files "/tmp/x" = none ∧
    (FileApplier.Apply (FileApplier.Apply demoOS
        { Path := "/tmp/x", Content := "hello", Mode := "0755" } false).1
        { Path := "/tmp/x", Content := "hello", Mode := "0755" }
        false).2.Changed = true :=
  ⟨rfl, rfl,
   claim1_amended.2.2.1 demoOS demoFw false rfl rfl rfl (by decide),
   by decide, rfl,
   claim1_amended.2.2.2.1 demoOS { Name := "curl", State := .latest } "1.0"
     (by decide) rfl rfl,
   rfl,
   claim1_amended.2.2.2.2 demoOS
     { Path := "/tmp/x", Content := "hello", Mode := "0755" }
     rfl (by decide) rfl (by decide) (by decide)⟩

/-- Claim C2, confirmed: for every resource kind, `Apply` with dryRun=true
returns the OS state unchanged, so any `Check` taken after the call reads
the same state as one taken before it (every Check is a pure read of the
`OSState`). -/
theorem claim2_dry_run_non_mutation (st : OSState) :
    (∀ k v, (SysctlApplier.Apply st k v true).1 = st) ∧
    (∀ svc, (ServiceApplier.Apply st svc true).1 = st) ∧
    (∀ fw, (FirewallApplier.Apply st fw true).1 = st) ∧
    (∀ pkg, (PackageApplier.Apply st pkg true).1 = st) ∧
    (∀ file, (FileApplier.Apply st file true).1 = st) :=
  ⟨fun k v => sysctlApply_dryRun_fst st k v,
   fun svc => serviceApply_dryRun_fst st svc,
   fun fw => firewallApply_dryRun_fst st fw,
   fun pkg => packageApply_dryRun_fst st pkg,
   fun file => fileApply_dryRun_fst st file⟩

/-- Claim C3, confirmed: under disabled mode `ReconcileAll` returns the nil
result list and nil error (Go `(nil, nil)`, embedded as the empty list and
`none`) and leaves the OS state untouched — no enforcer runs and there are
zero OS mutations, whatever the state snapshot contains. -/
theorem claim3_mode_gating (st : OSState) (state : State) :
    Reconciler.ReconcileAll .disabled st state = (st, [], none) := rfl

/-- Claim C4, confirmed: outside disabled mode, a `ReconcileAll` pass over
any OS state — hence under every pattern of per-resource read failures —
returns exactly one result per processed resource (services + sysctl keys +
one firewall result when the firewall is configured + packages + files),
and the pass-level error is always nil. -/
theorem claim4_resource_isolation (mode : ReconcileMode) (st : OSState)
    (state : State) :
    (mode ≠ ReconcileMode.disabled →
      (Reconciler.ReconcileAll mode st state).2.1.length =
        state.Services.length + state.Sysctl.length +
        (if state.Firewall.Enabled ||
            state.Firewall.AllowedServices.length > 0 then 1 else 0) +
        state.Packages.length + state.Files.length) ∧
    (Reconciler.ReconcileAll mode st state).2.2 = none :=
  ⟨fun h => reconcileAll_length mode st state h, reconcileAll_err mode st state⟩

/-- Claim C4, witness: an enforce-mode pass over a state whose every sysctl
read fails still yields five results (one per resource) and a nil error. -/
theorem claim4_witness :
    ReconcileMode.enforce ≠ ReconcileMode.disabled ∧
    (Reconciler.ReconcileAll .enforce errOS demoState).2.1.length = 5 ∧
    (Reconciler.ReconcileAll .enforce errOS demoState).2.2 = none := by
  refine ⟨by decide, ?_,
    (claim4_resource_isolation .enforce errOS demoState).2⟩
  rw [(claim4_resource_isolation .enforce errOS demoState).1 (by decide)]
  decide

/-- Claim C5, confirmed: in dry-run mode a pass does not change the OS
state, so two consecutive `ReconcileAll` passes return the same result
list; its resource-kind ordering is services, sysctl, firewall, packages,
files, and within the services, packages and files segments the result
names preserve the snapshot's list order (sysctl is embedded with one fixed
association-list order, matching the spec's absence of a key-order
guarantee). -/
theorem claim5_order_determinism (st : OSState) (state : State) :
    ((Reconciler.ReconcileAll .dryRun
        (Reconciler.ReconcileAll .dryRun st state).1 state).2.1
      = (Reconciler.ReconcileAll .dryRun st state).2.1) ∧
    ((Reconciler.ReconcileAll .dryRun st state).2.1.map
        (fun r => r.ResourceType)
      = state.Services.map (fun _ => "service") ++
        state.Sysctl.map (fun _ => "sysctl") ++
        (if state.Firewall.Enabled ||
            state.Firewall.AllowedServices.length > 0
          then ["firewall"] else []) ++
        state.Packages.map (fun _ => "package") ++
        state.Files.map (fun _ => "file")) ∧
    ((Reconciler.ReconcileAll .dryRun st state).2.1.map
        (fun r => r.ResourceName)
      = state.Services.map (fun svc => svc.Name) ++
        state.Sysctl.map (fun kv => kv.1) ++
        (if state.Firewall.Enabled ||
            state.Firewall.AllowedServices.length > 0
          then ["ufw"] else []) ++
        state.Packages.map (fun pkg => pkg.Name) ++
        state.Files.map (fun file => file.Path)) := by
  refine ⟨?_, reconcileAll_types _ st state (by decide),
    reconcileAll_names _ st state (by decide)⟩
  rw [reconcileAll_dry_fst _ st state (by decide)]

/-- Claim C6, counterexample: a reconciler whose file-enforcer reference is
nil (service and sysctl set) passes `HealthCheck`, contradicting the claim
that a nil enforcer of any of the five kinds yields an error. -/
theorem claim6_counterexample :
    partialRefs.fileEnforcer = none ∧
    Reconciler.HealthCheck partialRefs = none :=
  ⟨rfl, rfl⟩

/-- Claim C6, amended: `HealthCheck` returns a non-nil error exactly when
the service or the sysctl enforcer reference is nil; the firewall, package
and file enforcer references are not checked. -/
theorem claim6_amended (r : Reconciler.Refs) :
    (r.serviceEnforcer = none ∨ r.sysctlEnforcer = none →
      (Reconciler.HealthCheck r).isSome = true) ∧
    (r.serviceEnforcer ≠ none → r.sysctlEnforcer ≠ none →
      Reconciler.HealthCheck r = none) := by
  unfold Reconciler.HealthCheck
  constructor
  · rintro (h | h)
    · simp [h]
    · simp [h]
      split <;> rfl
  · intro h1 h2
    simp [Option.isNone_iff_eq_none, h1, h2]

/-- Claim C6, witness: the amended claim instantiated at a nil service
reference and at a fully constructed reconciler. -/
theorem claim6_witness :
    (Reconciler.HealthCheck { partialRefs with serviceEnforcer := none
      }).isSome = true ∧
    Reconciler.HealthCheck fullRefs = none :=
  ⟨(claim6_amended _).1 (Or.inl rfl),
   (claim6_amended fullRefs).2 (by decide) (by decide)⟩

/-- Claim C7, counterexample: a service desired stopped and observed
inactive matches its desired spec, yet the collector stores gauge value 0
(the code requires observed active AND desired running for a 1). -/
theorem claim7_counterexample :
    demoOS.svcActive "sshd" = some false ∧
    (Collector.serviceGauge demoOS
      { Name := "sshd", State := .stopped, Enabled := false }).value = 0 :=
  ⟨rfl, rfl⟩

/-- Claim C7, amended: the service gauge is 1 exactly when the service is
observed active and its desired state is running (a desired-stopped service
always gets 0, even when compliant); the sysctl gauge is 1 exactly when the
read succeeds and the value equals the expected one; gauges carry the
expected label and are keyed by the resource's name/key. -/
theorem claim7_amended (st : OSState) (svc : ServiceConfig)
    (key expected : String) :
    ((Collector.serviceGauge st svc).value
      = if st.svcActive svc.Name = some true ∧ svc.State = .running
        then 1 else 0) ∧
    ((Collector.sysctlGauge st key expected).value
      = if st.sysctl key = some expected then 1 else 0) ∧
    ((Collector.sysctlGauge st key expected).expected = expected) ∧
    (∀ services : List ServiceConfig,
      (Collector.checkServices st services).map Prod.fst
        = services.map (fun s => s.Name)) ∧
    (∀ params : List (String × String),
      (Collector.checkSysctl st params).map Prod.fst
        = params.map (fun p => p.1)) := by
  refine ⟨?_, ?_, rfl, ?_, ?_⟩
  · unfold Collector.serviceGauge
    cases h : st.svcActive svc.Name with
    | none => cases svc.State <;> simp [h]
    | some b => cases b <;> cases hs : svc.State <;> simp [h, hs]
  · unfold Collector.sysctlGauge
    cases h : st.sysctl key with
    | none => simp [h]
    | some a => by_cases ha : a = expected <;> simp [h, ha]
  · intro services; simp [Collector.checkServices]
  · intro params; simp [Collector.checkSysctl]

/-- Claim C8, confirmed: outside disabled mode `ReconcileEvent` performs
exactly one full `ReconcileAll` over the given state — its resulting OS
state and returned error are those of `ReconcileAll` — independently of the
event type and resource name; under disabled mode it returns nil without
reconciling. -/
theorem claim8_event_full_pass (mode : ReconcileMode) (st : OSState)
    (eventType resourceName : String) (state : State) :
    (mode ≠ ReconcileMode.disabled →
      Reconciler.ReconcileEvent mode st eventType resourceName state
        = ((Reconciler.ReconcileAll mode st state).1,
           (Reconciler.ReconcileAll mode st state).2.2)) ∧
    (∀ e2 r2, Reconciler.ReconcileEvent mode st eventType resourceName state
        = Reconciler.ReconcileEvent mode st e2 r2 state) ∧
    (mode = ReconcileMode.disabled →
      Reconciler.ReconcileEvent mode st eventType resourceName state
        = (st, none)) := by
  unfold Reconciler.ReconcileEvent
  refine ⟨?_, ?_, ?_⟩
  · intro h; rw [if_neg h]
  · intro e2 r2; rfl
  · intro h; rw [if_pos h]

/-- Claim C8, witness: a file-modified event in enforce mode performs the
full pass; the same event under disabled mode returns nil. -/
theorem claim8_witness :
    ReconcileMode.enforce ≠ ReconcileMode.disabled ∧
    Reconciler.ReconcileEvent .enforce demoOS "file_modified" "/etc/x"
        demoState
      = ((Reconciler.ReconcileAll .enforce demoOS demoState).1,
         (Reconciler.ReconcileAll .enforce demoOS demoState).2.2) ∧
    Reconciler.ReconcileEvent .disabled demoOS "file_modified" "/etc/x"
        demoState = (demoOS, none) :=
  ⟨by decide,
   (claim8_event_full_pass .enforce demoOS "file_modified" "/etc/x"
     demoState).1 (by decide),
   (claim8_event_full_pass .disabled demoOS "file_modified" "/etc/x"
     demoState).2.2 rfl⟩

/-- Claim C9, confirmed: applying a file spec with content and a mode to a
nonexistent path (dryRun=false) emits only the content-write action — no
chmod or chown — and creates the file with hard-coded permission bits 0644
owned by the agent process, because the mode and ownership branches are
guarded by the existence flag sampled before the write; a desired mode
other than 0644 is not applied in the creating call. -/
theorem claim9_create_mode_0644 (st : OSState) (file : FileConfig)
    (h0 : st.files file.Path = none) (hc : file.Content ≠ "")
    (hm : file.Mode ≠ "") :
    (FileApplier.Apply st file false).2.Actions
      = ["write content to " ++ file.Path] ∧
    (FileApplier.Apply st file false).2.Changed = true ∧
    (FileApplier.Apply st file false).2.Error = none ∧
    (FileApplier.Apply st file false).1.files file.Path
      = some { content := file.Content, mode := "0644",
               owner := st.defaultOwner, group := st.defaultGroup } := by
  unfold FileApplier.Apply FileApplier.contentStep FileApplier.modeStep
    FileApplier.ownerStep FileApplier.getMode FileApplier.getOwnership
    OSState.fsWrite
  simp only [h0, hc, hm]
  simp [h0, hc, hm]
  try (split <;> simp)

/-- Claim C9, witness: creating /tmp/x with content "hello" and desired
mode 0755 writes the content but leaves the created file at 0644. -/
theorem claim9_witness :
    demoOS.files "/tmp/x" = none ∧
    (FileApplier.Apply demoOS
        { Path := "/tmp/x", Content := "hello", Mode := "0755" }
        false).2.Actions = ["write content to /tmp/x"] ∧
    (FileApplier.Apply demoOS
        { Path := "/tmp/x", Content := "hello", Mode := "0755" }
        false).1.files "/tmp/x"
      = some { content := "hello", mode := "0644",
               owner := "root", group := "root" } := by
  have h := claim9_create_mode_0644 demoOS
    { Path := "/tmp/x", Content := "hello", Mode := "0755" }
    rfl (by decide) (by decide)
  exact ⟨rfl, h.1, h.2.2.2⟩

/-- Claim C10, confirmed: when the snapshot's firewall has Enabled=false
and no allowed services, `ReconcileAll` skips the firewall enforcer in
every mode — no result of type "firewall" is emitted and the live firewall
state (enabled flag and allowed services) is untouched, so an enabled live
firewall is never disabled to match such a desired state. -/
theorem claim10_firewall_skip (mode : ReconcileMode) (st : OSState)
    (state : State) (hEn : state.Firewall.Enabled = false)
    (hA : state.Firewall.AllowedServices = []) :
    (∀ r ∈ (Reconciler.ReconcileAll mode st state).2.1,
      r.ResourceType ≠ "firewall") ∧
    (Reconciler.ReconcileAll mode st state).1.ufwEnabled = st.ufwEnabled ∧
    (Reconciler.ReconcileAll mode st state).1.ufwAllowed = st.ufwAllowed := by
  refine ⟨?_, (reconcileAll_ufwSame mode st state hEn hA).2.1,
    (reconcileAll_ufwSame mode st state hEn hA).2.2⟩
  by_cases hd : mode = ReconcileMode.disabled
  · subst hd
    intro r hr
    simp [Reconciler.ReconcileAll] at hr
  · have hnot : "firewall" ∉ (Reconciler.ReconcileAll mode st
        state).2.1.map (fun r => r.ResourceType) := by
      rw [reconcileAll_types mode st state hd]
      simp [hEn, hA]
    intro r hr heq
    exact hnot (heq ▸ List.mem_map_of_mem _ hr)

/-- Claim C10, witness: an enforce-mode pass over the no-firewall snapshot
leaves the (inactive) live firewall state untouched and emits no firewall
result. -/
theorem claim10_witness :
    demoStateNoFw.Firewall.Enabled = false ∧
    demoStateNoFw.Firewall.AllowedServices = [] ∧
    (∀ r ∈ (Reconciler.ReconcileAll .enforce demoOS demoStateNoFw).2.1,
      r.ResourceType ≠ "firewall") ∧
    (Reconciler.ReconcileAll .enforce demoOS demoStateNoFw).1.ufwEnabled
      = demoOS.ufwEnabled :=
  ⟨rfl, rfl,
   (claim10_firewall_skip .enforce demoOS demoStateNoFw rfl rfl).1,
   (claim10_firewall_skip .enforce demoOS demoStateNoFw rfl rfl).2.1⟩

end PowerEdge
